import Mathlib

/-!
# pandoc-converter: the `Convert` call of `internal/service.go`

A shallow embedding of `ConverterService.Convert`, of the format table
`kFormats` and of `NewConverterService`, with the properties of the
conversion pipeline stated over them.

Conventions of the embedding.

* A Go function returning `(value, error)` becomes a pair whose second
  component is `Option String`: `none` is a `nil` error, `some e` an error
  whose `Error()` text is `e`.
* The Go standard library (`os`, `io/ioutil`, `os/exec`, `path`) is not part
  of the repository. Its calls are fields of the structure `Runtime`, each a
  function of an explicit state, so that every theorem quantified over a
  `Runtime` holds whatever the file system and the converter do.
* `Convert` returns, next to its two Go results, the final state and the
  list of library calls it made, in order, each with the result it got.
* Calls on the `zap` logger only emit diagnostics: nothing they return is
  branched on, and they are left out of the list of calls.
* The generated package `api` is not among the sources. The numeric values
  of the `api.Format_*` constants and the `String()` method of `api.Format`
  are taken as a parameter (`Api`).
-/

namespace PandocConverter

/-! ## The `api` package -/

/-- The `api.Format_*` constants that occur as keys of `kFormats`. -/
inductive FormatName
  | ASCIIDOC | BEAMER | BIBTEX | BIBLATEX | COMMONMARK | COMMONMARK_X | CONTEXT
  | CSLJSON | DOCBOOK_4 | DOCBOOK_5 | DOCX | DOKUWIKI | EPUB_3 | EPUB_2 | FB2
  | GFM | HADDOCK | HTML_5 | HTML_4 | ICML | IPYNB | JATS_ARCHIVING
  | JATS_ARTICLE_AUTHORING | JATS_PUBLISHING | JIRA | JSON | LATEX | MAN
  | MARKDOWN | MARKDOWN_MMD | MARKDOWN_PHP_EXTRA | MARKDOWN_STRICT | MEDIAWIKI
  | MS | MUSE | NATIVE | ODT | OPML | OPENDOCUMENT | ORG | PDF | PLAIN | PPTX
  | RST | RTF | TEXINFO | TEXTILE | SLIDEOUS | SLIDY | DZSLIDES | REVEALJS | S5
  | TEI | XWIKI | ZIMWIKI
  deriving DecidableEq, Repr

/-- A value of the Go type `api.Format`, a protobuf enumeration: an `int32`. -/
abbrev Format := Int

/-- What `Convert` and `kFormats` use of the generated package `api`:
`Format_value n` is the constant `api.Format_n`, and `Format_String f` is
`f.String()`, which `%v` prints. -/
structure Api where
  Format_value : FormatName → Format
  Format_String : Format → String

/-- A byte slice, `[]byte`. -/
abbrev Bytes := List UInt8

/-- The message `api.ConvertRequest`. -/
structure ConvertRequest where
  FromFormat : Format
  ToFormat : Format
  Content : Bytes
  deriving DecidableEq, Repr

/-- The message `api.ConvertResponse`. -/
structure ConvertResponse where
  ToFormat : Format
  Content : Bytes
  deriving DecidableEq, Repr

/-! ## The format table -/

/-- The entries of the map literal `kFormats`, in source order. -/
def kFormats : List (FormatName × String) :=
  [ (.ASCIIDOC, "asciidoc"),
    (.BEAMER, "beamer"),
    (.BIBTEX, "bibtex"),
    (.BIBLATEX, "biblatex"),
    (.COMMONMARK, "commonmark"),
    (.COMMONMARK_X, "commonmark_x"),
    (.CONTEXT, "context"),
    (.CSLJSON, "csljson"),
    (.DOCBOOK_4, "docbook4"),
    (.DOCBOOK_5, "docbook5"),
    (.DOCX, "docx"),
    (.DOKUWIKI, "dokuwiki"),
    (.EPUB_3, "epub3"),
    (.EPUB_2, "epub2"),
    (.FB2, "fb2"),
    (.GFM, "gfm"),
    (.HADDOCK, "haddock"),
    (.HTML_5, "html5"),
    (.HTML_4, "html4"),
    (.ICML, "icml"),
    (.IPYNB, "ipynb"),
    (.JATS_ARCHIVING, "jats_archiving"),
    (.JATS_ARTICLE_AUTHORING, "jats_articleauthoring"),
    (.JATS_PUBLISHING, "jats_publishing"),
    (.JIRA, "jira"),
    (.JSON, "json"),
    (.LATEX, "latex"),
    (.MAN, "man"),
    (.MARKDOWN, "markdown"),
    (.MARKDOWN_MMD, "markdown_mmd"),
    (.MARKDOWN_PHP_EXTRA, "markdown_phpextra"),
    (.MARKDOWN_STRICT, "markdown_strict"),
    (.MEDIAWIKI, "mediawiki"),
    (.MS, "ms"),
    (.MUSE, "muse"),
    (.NATIVE, "native"),
    (.ODT, "odt"),
    (.OPML, "opml"),
    (.OPENDOCUMENT, "opendocument"),
    (.ORG, "org"),
    (.PDF, "pdf"),
    (.PLAIN, "plain"),
    (.PPTX, "pptx"),
    (.RST, "rst"),
    (.RTF, "rtf"),
    (.TEXINFO, "texinfo"),
    (.TEXTILE, "textile"),
    (.SLIDEOUS, "slideous"),
    (.SLIDY, "slidy"),
    (.DZSLIDES, "dzslides"),
    (.REVEALJS, "revealjs"),
    (.S5, "s5"),
    (.TEI, "tei"),
    (.XWIKI, "xwiki"),
    (.ZIMWIKI, "zimwiki") ]

/-- The map index expression `kFormats[f]` in its two-result form
`token, found := kFormats[f]`: `some token` when `f` is the value of a key,
`none` when it is not. Go rejects a map literal that repeats a constant key,
so at most one entry matches. -/
def kFormatsLookup (api : Api) (f : Format) : Option String :=
  (kFormats.find? (fun e => decide (api.Format_value e.1 = f))).map Prod.snd

/-! ## gRPC status errors -/

/-- The two `codes.Code` values that `Convert` uses. -/
inductive Code
  | InvalidArgument
  | Internal
  deriving DecidableEq, Repr

/-- An error built by `status.Error` or `status.Errorf`: a code and a
message. -/
structure Status where
  code : Code
  message : String
  deriving DecidableEq, Repr

/-- The text `fmt` writes for a `[]byte` under the verb `%v`: the bytes as
decimal numbers, separated by one space, between square brackets. -/
def fmtBytesV (b : Bytes) : String :=
  "[" ++ " ".intercalate (b.map (fun c => toString c.toNat)) ++ "]"

/-! ## The standard library, as seen from `Convert` -/

/-- The fields of `exec.Cmd` that matter here. `Path` is the path of the
binary that is run, `Args` the argument vector, `Env` the environment a
caller may set before running the command (`none` is a `nil` slice: the child
inherits the environment of the server process), and `Err` the error a failed
search for the binary leaves in the command. -/
structure Cmd where
  Path : String
  Args : List String
  Env : Option (List String)
  Err : Option String
  deriving DecidableEq, Repr

/-- The constant `fs.ModePerm`. -/
def ModePerm : Nat := 0o777

/-- One call of the standard library made by `Convert`, with its arguments
and the results it returned. -/
inductive Call
  | MkdirTemp (dir pattern : String) (name : String) (err : Option String)
  | RemoveAll (path : String) (err : Option String)
  | WriteFile (filename : String) (data : Bytes) (perm : Nat) (err : Option String)
  | CombinedOutput (cmd : Cmd) (out : Bytes) (err : Option String)
  | ReadFile (filename : String) (data : Bytes) (err : Option String)
  deriving DecidableEq, Repr

/-- The standard-library functions called by `Convert`, over a state `σ` of
the machine (file system, processes). `TempDir` is `os.TempDir`, `MkdirTemp`
is `os.MkdirTemp`, `RemoveAll` is `os.RemoveAll`, `WriteFile` and `ReadFile`
are those of `io/ioutil`, `CombinedOutput` is `(*exec.Cmd).CombinedOutput`,
`LookPath` is `exec.LookPath` (it searches the directories of the `PATH` of
the server process, which is part of the state), `Base` is `filepath.Base`
and `Join` is `path.Join` of two elements. `DirExists` is not called by the
code: it observes whether a directory is present, for the statements about
what a call leaves behind. -/
structure Runtime (σ : Type) where
  TempDir : σ → String
  MkdirTemp : String → String → σ → (String × Option String) × σ
  RemoveAll : String → σ → Option String × σ
  WriteFile : String → Bytes → Nat → σ → Option String × σ
  ReadFile : String → σ → (Bytes × Option String) × σ
  CombinedOutput : Cmd → σ → (Bytes × Option String) × σ
  LookPath : String → σ → String × Option String
  Base : String → String
  Join : String → String → String
  DirExists : σ → String → Bool

/-- The command `exec.CommandContext(ctx, name, arg...)`, made in state `st`.
`Args` is `name` followed by `arg` and `Env` is left `nil`. `Path` is `name`,
except that a `name` without a directory part (`filepath.Base(name) == name`)
is searched with `exec.LookPath`: a non-empty result of the search becomes
`Path`, and an error of the search is kept in `Err`. The context only bounds
the run of the command, which is `Runtime.CombinedOutput`. -/
def CommandContext {σ : Type} (rt : Runtime σ) (st : σ) (name : String)
    (arg : List String) : Cmd :=
  if rt.Base name = name then
    ⟨if (rt.LookPath name st).1 ≠ "" then (rt.LookPath name st).1 else name,
      name :: arg, none, (rt.LookPath name st).2⟩
  else
    ⟨name, name :: arg, none, none⟩

/-! ## The service -/

/-- A `*zap.Logger`, as far as the service is concerned: the fields attached
with `With`. -/
structure Logger where
  fields : List (String × String)
  deriving DecidableEq, Repr

/-- The method `(*zap.Logger).With` for string fields. -/
def Logger.With (l : Logger) (fs : List (String × String)) : Logger :=
  ⟨l.fields ++ fs⟩

/-- The struct `ConverterService`; `log` is `none` for a `nil` logger. -/
structure ConverterService where
  pandoc : String
  log : Option Logger
  pathEnvVar : String
  deriving DecidableEq, Repr

/-- The options of the package: `WithLog`, `WithPandocPath`,
`WithPathEnvVar`. -/
inductive Opt
  | WithLog (log : Option Logger)
  | WithPandocPath (path : String)
  | WithPathEnvVar (v : String)
  deriving DecidableEq, Repr

/-- The function an option stands for, applied to a service. -/
def Opt.apply : Opt → ConverterService → ConverterService
  | .WithLog log, s => { s with log := log }
  | .WithPandocPath path, s => { s with pandoc := path }
  | .WithPathEnvVar v, s => { s with pathEnvVar := v }

/-- The function `NewConverterService`. `lookPath` is the result of
`exec.LookPath("pandoc")` and `newDevelopment` that of
`zap.NewDevelopment()`, should they be called. -/
def NewConverterService (lookPath : String × Option String)
    (newDevelopment : Logger × Option String) (opts : List Opt) :
    Option ConverterService × Option String :=
  let s := opts.foldl (fun s opt => opt.apply s) ⟨"", none, ""⟩
  let found :=
    if s.pandoc = "" then
      match lookPath.2 with
      | some err => (s, some err)
      | none => ({ s with pandoc := lookPath.1 }, none)
    else (s, none)
  match found.2 with
  | some err => (none, some err)
  | none =>
    let s := found.1
    match s.log with
    | some _ => (some s, none)
    | none =>
      match newDevelopment.2 with
      | some err => (none, some err)
      | none =>
        (some { s with log := some (newDevelopment.1.With
          [("pandoc", s.pandoc), ("PATH", s.pathEnvVar)]) }, none)

/-- What a call of `Convert` yields: its two Go results, the state it leaves
and the library calls it made, in order. -/
structure Outcome (σ : Type) where
  resp : Option ConvertResponse
  err : Option Status
  state : σ
  calls : List Call

/-- The body of `Convert` after the `defer` statement (from the lookup of
`req.FromFormat` to the final `return`), run in the temporary directory
`td`. -/
def convertBody {σ : Type} (api : Api) (rt : Runtime σ) (s : ConverterService)
    (req : ConvertRequest) (td : String) (st : σ) : Outcome σ :=
  match kFormatsLookup api req.FromFormat with
  | none =>
    ⟨none, some ⟨.InvalidArgument,
      "invalid from format " ++ api.Format_String req.FromFormat⟩, st, []⟩
  | some inputFormat =>
  match kFormatsLookup api req.ToFormat with
  | none =>
    ⟨none, some ⟨.InvalidArgument,
      "invalid to format " ++ api.Format_String req.ToFormat⟩, st, []⟩
  | some outputFormat =>
  if req.Content.length = 0 then
    ⟨none, some ⟨.InvalidArgument, "empty input content"⟩, st, []⟩
  else
    let inputPath := rt.Join td "input-file"
    let outputPath := rt.Join td "output-file"
    let w := rt.WriteFile inputPath req.Content ModePerm st
    let c1 := Call.WriteFile inputPath req.Content ModePerm w.1
    match w.1 with
    | some err =>
      ⟨none, some ⟨.Internal,
        "failed to write input to temporary file - " ++ err⟩, w.2, [c1]⟩
    | none =>
      let args := [s.pandoc] ++
        ["-i", inputPath, "-f", inputFormat, "-o", outputPath, "-t", outputFormat]
      let cmd := CommandContext rt w.2 (args.headD "") args.tail
      let r := rt.CombinedOutput cmd w.2
      let c2 := Call.CombinedOutput cmd r.1.1 r.1.2
      match r.1.2 with
      | some err =>
        ⟨none, some ⟨.Internal,
          "conversion failed - " ++ err ++ "\n" ++ fmtBytesV r.1.1⟩, r.2, [c1, c2]⟩
      | none =>
        let o := rt.ReadFile outputPath r.2
        let c3 := Call.ReadFile outputPath o.1.1 o.1.2
        match o.1.2 with
        | some err =>
          ⟨none, some ⟨.Internal, "failed to read output file - " ++ err⟩,
            o.2, [c1, c2, c3]⟩
        | none =>
          ⟨some ⟨req.ToFormat, o.1.1⟩, none, o.2, [c1, c2, c3]⟩

/-- The method `ConverterService.Convert`. The temporary directory is made
first; when that fails the call returns at once. Otherwise the body runs, and
the deferred function then removes the directory: it runs after the results
are fixed and its error is only logged. -/
def Convert {σ : Type} (api : Api) (rt : Runtime σ) (s : ConverterService)
    (req : ConvertRequest) (st : σ) : Outcome σ :=
  let m := rt.MkdirTemp (rt.TempDir st) "session-*" st
  let td := m.1.1
  let c0 := Call.MkdirTemp (rt.TempDir st) "session-*" td m.1.2
  match m.1.2 with
  | some err =>
    ⟨none, some ⟨.Internal,
      "failed to create temporary directory for call - " ++ err⟩, m.2, [c0]⟩
  | none =>
    let b := convertBody api rt s req td m.2
    let d := rt.RemoveAll td b.state
    ⟨b.resp, b.err, d.2, c0 :: b.calls ++ [Call.RemoveAll td d.1]⟩

/-! ## Concrete machines, for evaluation -/

/-- An `Api` for concrete evaluation: the constants are numbered in the order
of their declaration above, and `String()` prints the number. -/
def sampleApi : Api :=
  ⟨fun n => (n.toCtorIdx : Int), fun f => toString f⟩

/-- A small file system: the directories present and the files with their
contents. -/
structure MemFS where
  dirs : List String
  files : List (String × Bytes)
  deriving DecidableEq, Repr

/-- How a concrete machine behaves: the errors its calls inject (`none`: the
call goes through), what the converter prints, and the file it leaves at its
`-o` path when it exits with status zero (`none`: it leaves no file). -/
structure Script where
  mkdirErr : Option String
  removeErr : Option String
  writeErr : Option String
  runOut : Bytes
  runErr : Option String
  produced : Option Bytes
  deriving DecidableEq, Repr

/-- The file `name` with contents `data` put into a file system. -/
def MemFS.put (fs : MemFS) (name : String) (data : Bytes) : MemFS :=
  ⟨fs.dirs, (name, data) :: fs.files.filter (fun f => decide (f.1 ≠ name))⟩

/-- Whether `p` is `path` or lies below it. -/
def below (path p : String) : Bool :=
  decide (p = path) || (path ++ "/").data.isPrefixOf p.data

/-- The function `filepath.Base` on a system whose separator is `/`: the
last element of the path, trailing slashes set aside; `.` for the empty path
and `/` for a path of slashes only. -/
def unixBase (path : String) : String :=
  if path = "" then "." else
    let stripped := (path.data.reverse.dropWhile (fun c => c == '/')).reverse
    let last := (stripped.reverse.takeWhile (fun c => c != '/')).reverse
    if last = [] then "/" else ⟨last⟩

/-- The machine that follows a script. Scratch root `/tmp`; the directory
made for pattern `session-*` is `session-1`; a removal that reports an error
leaves everything in place; a successful one deletes the path and all below
it; reading a file that is not there is an error; every bare name is found
in `/usr/bin`; a command that carries an error of its search is not run. -/
def scripted (k : Script) : Runtime MemFS where
  TempDir := fun _ => "/tmp"
  MkdirTemp := fun dir pattern fs =>
    match k.mkdirErr with
    | some e => (("", some e), fs)
    | none =>
      let name := dir ++ "/" ++ pattern.dropRight 1 ++ "1"
      ((name, none), ⟨name :: fs.dirs, fs.files⟩)
  RemoveAll := fun path fs =>
    match k.removeErr with
    | some e => (some e, fs)
    | none =>
      (none, ⟨fs.dirs.filter (fun d => !below path d),
        fs.files.filter (fun f => !below path f.1)⟩)
  WriteFile := fun name data _ fs =>
    match k.writeErr with
    | some e => (some e, fs)
    | none => (none, fs.put name data)
  ReadFile := fun name fs =>
    match fs.files.find? (fun f => decide (f.1 = name)) with
    | some f => ((f.2, none), fs)
    | none => (([], some ("open " ++ name ++ ": no such file or directory")), fs)
  CombinedOutput := fun cmd fs =>
    match cmd.Err with
    | some e => (([], some e), fs)
    | none =>
      match k.runErr with
      | some e => ((k.runOut, some e), fs)
      | none =>
        match k.produced with
        | some data => ((k.runOut, none), fs.put (cmd.Args.getD 6 "") data)
        | none => ((k.runOut, none), fs)
  LookPath := fun name _ => ("/usr/bin/" ++ name, none)
  Base := unixBase
  Join := fun a b => a ++ "/" ++ b
  DirExists := fun fs p => decide (p ∈ fs.dirs)

/-- A script in which every call succeeds and the converter, silent, leaves
the four bytes `<h1>` as its output. -/
def allGood : Script :=
  ⟨none, none, none, [], none, some [60, 104, 49, 62]⟩

/-- The service as `cmd/root.go` makes it with the default flags
(`kPandocPathDefault`, `kPathEnvDefault`). -/
def sampleService : ConverterService :=
  ⟨"/usr/local/bin/pandoc", some ⟨[]⟩,
    "/opt/texlive/texdir/bin/x86_64-linuxmusl:/usr/local/sbin:/usr/local/bin:" ++
      "/usr/sbin:/usr/bin:/sbin:/bin"⟩

/-- The service as `cmd/root.go` makes it when the flag `pandoc-path` is the
bare name `pandoc` and the flag `path-env-var` is `/opt/pandoc/bin`. -/
def bareService : ConverterService :=
  ⟨"pandoc", some ⟨[]⟩, "/opt/pandoc/bin"⟩

/-- An empty scratch root. -/
def emptyFS : MemFS := ⟨["/tmp"], []⟩

/-- The request `MARKDOWN` to `HTML_5` with content `# Title`. -/
def titleRequest : ConvertRequest :=
  ⟨sampleApi.Format_value .MARKDOWN, sampleApi.Format_value .HTML_5,
    [35, 32, 84, 105, 116, 108, 101]⟩

/-- The request `MARKDOWN` to `DOCX` with empty content. -/
def emptyRequest : ConvertRequest :=
  ⟨sampleApi.Format_value .MARKDOWN, sampleApi.Format_value .DOCX, []⟩

/-- A request that fails all three checks: neither format is registered (the
sample numbering stops at 54) and the content is empty. -/
def hopelessRequest : ConvertRequest :=
  ⟨99, 98, []⟩

/-- The sample service with another `PATH` override. -/
def otherPathService : ConverterService :=
  ⟨"/usr/local/bin/pandoc", some ⟨[]⟩, "/opt/texlive/bin"⟩

/-- A script in which the scratch root is full: the directory cannot be
made. -/
def noSpace : Script :=
  ⟨some "mkdir /tmp/session-1: no space left on device", none, none, [], none, none⟩

/-- A script in which the input file cannot be written. -/
def noWrite : Script :=
  ⟨none, none, some "open /tmp/session-1/input-file: read-only file system", [], none, none⟩

/-- A script in which the converter prints the two bytes `hi` and exits with
status 1. -/
def converterFails : Script :=
  ⟨none, none, none, [104, 105], some "exit status 1", none⟩

/-- A script in which the conversion goes through and the removal of the
directory is refused. -/
def noRemove : Script :=
  ⟨none, some "unlinkat /tmp/session-1: permission denied", none, [], none,
    some [60, 104, 49, 62]⟩

/-! ## The paths through a call -/

/-- The eight ways a call of `Convert` can go, each with the library results
that select it and the outcome it gives: the directory cannot be made; the
source format, the target format or the content is rejected; the input file
cannot be written; the converter fails; the output file cannot be read; the
conversion is done. -/
inductive Ran {σ : Type} (api : Api) (rt : Runtime σ) (s : ConverterService)
    (req : ConvertRequest) (st : σ) : Outcome σ → Prop
  | mkdirFailed (td e : String) (st1 : σ)
      (hm : rt.MkdirTemp (rt.TempDir st) "session-*" st = ((td, some e), st1)) :
      Ran api rt s req st
        ⟨none, some ⟨.Internal, "failed to create temporary directory for call - " ++ e⟩,
          st1, [Call.MkdirTemp (rt.TempDir st) "session-*" td (some e)]⟩
  | badFrom (td : String) (st1 : σ) (re : Option String) (st2 : σ)
      (hm : rt.MkdirTemp (rt.TempDir st) "session-*" st = ((td, none), st1))
      (hf : kFormatsLookup api req.FromFormat = none)
      (hr : rt.RemoveAll td st1 = (re, st2)) :
      Ran api rt s req st
        ⟨none, some ⟨.InvalidArgument,
            "invalid from format " ++ api.Format_String req.FromFormat⟩,
          st2, [Call.MkdirTemp (rt.TempDir st) "session-*" td none, Call.RemoveAll td re]⟩
  | badTo (td : String) (st1 : σ) (re : Option String) (st2 : σ) (i : String)
      (hm : rt.MkdirTemp (rt.TempDir st) "session-*" st = ((td, none), st1))
      (hf : kFormatsLookup api req.FromFormat = some i)
      (ht : kFormatsLookup api req.ToFormat = none)
      (hr : rt.RemoveAll td st1 = (re, st2)) :
      Ran api rt s req st
        ⟨none, some ⟨.InvalidArgument,
            "invalid to format " ++ api.Format_String req.ToFormat⟩,
          st2, [Call.MkdirTemp (rt.TempDir st) "session-*" td none, Call.RemoveAll td re]⟩
  | emptyContent (td : String) (st1 : σ) (re : Option String) (st2 : σ) (i o : String)
      (hm : rt.MkdirTemp (rt.TempDir st) "session-*" st = ((td, none), st1))
      (hf : kFormatsLookup api req.FromFormat = some i)
      (ht : kFormatsLookup api req.ToFormat = some o)
      (hc : req.Content.length = 0)
      (hr : rt.RemoveAll td st1 = (re, st2)) :
      Ran api rt s req st
        ⟨none, some ⟨.InvalidArgument, "empty input content"⟩,
          st2, [Call.MkdirTemp (rt.TempDir st) "session-*" td none, Call.RemoveAll td re]⟩
  | writeFailed (td : String) (st1 : σ) (i o e : String) (st2 : σ)
      (re : Option String) (st3 : σ)
      (hm : rt.MkdirTemp (rt.TempDir st) "session-*" st = ((td, none), st1))
      (hf : kFormatsLookup api req.FromFormat = some i)
      (ht : kFormatsLookup api req.ToFormat = some o)
      (hc : req.Content.length ≠ 0)
      (hw : rt.WriteFile (rt.Join td "input-file") req.Content ModePerm st1 = (some e, st2))
      (hr : rt.RemoveAll td st2 = (re, st3)) :
      Ran api rt s req st
        ⟨none, some ⟨.Internal, "failed to write input to temporary file - " ++ e⟩,
          st3, [Call.MkdirTemp (rt.TempDir st) "session-*" td none,
            Call.WriteFile (rt.Join td "input-file") req.Content ModePerm (some e),
            Call.RemoveAll td re]⟩
  | runFailed (td : String) (st1 : σ) (i o : String) (st2 : σ) (out : Bytes)
      (e : String) (st3 : σ) (re : Option String) (st4 : σ)
      (hm : rt.MkdirTemp (rt.TempDir st) "session-*" st = ((td, none), st1))
      (hf : kFormatsLookup api req.FromFormat = some i)
      (ht : kFormatsLookup api req.ToFormat = some o)
      (hc : req.Content.length ≠ 0)
      (hw : rt.WriteFile (rt.Join td "input-file") req.Content ModePerm st1 = (none, st2))
      (hx : rt.CombinedOutput (CommandContext rt st2 s.pandoc ["-i", rt.Join td "input-file",
          "-f", i, "-o", rt.Join td "output-file", "-t", o]) st2 = ((out, some e), st3))
      (hr : rt.RemoveAll td st3 = (re, st4)) :
      Ran api rt s req st
        ⟨none, some ⟨.Internal, "conversion failed - " ++ e ++ "\n" ++ fmtBytesV out⟩,
          st4, [Call.MkdirTemp (rt.TempDir st) "session-*" td none,
            Call.WriteFile (rt.Join td "input-file") req.Content ModePerm none,
            Call.CombinedOutput (CommandContext rt st2 s.pandoc ["-i", rt.Join td "input-file",
              "-f", i, "-o", rt.Join td "output-file", "-t", o]) out (some e),
            Call.RemoveAll td re]⟩
  | readFailed (td : String) (st1 : σ) (i o : String) (st2 : σ) (out : Bytes)
      (st3 : σ) (data : Bytes) (e : String) (st4 : σ) (re : Option String) (st5 : σ)
      (hm : rt.MkdirTemp (rt.TempDir st) "session-*" st = ((td, none), st1))
      (hf : kFormatsLookup api req.FromFormat = some i)
      (ht : kFormatsLookup api req.ToFormat = some o)
      (hc : req.Content.length ≠ 0)
      (hw : rt.WriteFile (rt.Join td "input-file") req.Content ModePerm st1 = (none, st2))
      (hx : rt.CombinedOutput (CommandContext rt st2 s.pandoc ["-i", rt.Join td "input-file",
          "-f", i, "-o", rt.Join td "output-file", "-t", o]) st2 = ((out, none), st3))
      (ho : rt.ReadFile (rt.Join td "output-file") st3 = ((data, some e), st4))
      (hr : rt.RemoveAll td st4 = (re, st5)) :
      Ran api rt s req st
        ⟨none, some ⟨.Internal, "failed to read output file - " ++ e⟩,
          st5, [Call.MkdirTemp (rt.TempDir st) "session-*" td none,
            Call.WriteFile (rt.Join td "input-file") req.Content ModePerm none,
            Call.CombinedOutput (CommandContext rt st2 s.pandoc ["-i", rt.Join td "input-file",
              "-f", i, "-o", rt.Join td "output-file", "-t", o]) out none,
            Call.ReadFile (rt.Join td "output-file") data (some e),
            Call.RemoveAll td re]⟩
  | done (td : String) (st1 : σ) (i o : String) (st2 : σ) (out : Bytes)
      (st3 : σ) (data : Bytes) (st4 : σ) (re : Option String) (st5 : σ)
      (hm : rt.MkdirTemp (rt.TempDir st) "session-*" st = ((td, none), st1))
      (hf : kFormatsLookup api req.FromFormat = some i)
      (ht : kFormatsLookup api req.ToFormat = some o)
      (hc : req.Content.length ≠ 0)
      (hw : rt.WriteFile (rt.Join td "input-file") req.Content ModePerm st1 = (none, st2))
      (hx : rt.CombinedOutput (CommandContext rt st2 s.pandoc ["-i", rt.Join td "input-file",
          "-f", i, "-o", rt.Join td "output-file", "-t", o]) st2 = ((out, none), st3))
      (ho : rt.ReadFile (rt.Join td "output-file") st3 = ((data, none), st4))
      (hr : rt.RemoveAll td st4 = (re, st5)) :
      Ran api rt s req st
        ⟨some ⟨req.ToFormat, data⟩, none,
          st5, [Call.MkdirTemp (rt.TempDir st) "session-*" td none,
            Call.WriteFile (rt.Join td "input-file") req.Content ModePerm none,
            Call.CombinedOutput (CommandContext rt st2 s.pandoc ["-i", rt.Join td "input-file",
              "-f", i, "-o", rt.Join td "output-file", "-t", o]) out none,
            Call.ReadFile (rt.Join td "output-file") data none,
            Call.RemoveAll td re]⟩

/-- Whether a call is a removal. -/
def Call.isRemoveAll : Call → Bool
  | .RemoveAll _ _ => true
  | _ => false

/-- Whether a call writes a file. -/
def Call.isWriteFile : Call → Bool
  | .WriteFile _ _ _ _ => true
  | _ => false

/-- Whether a call runs the converter. -/
def Call.isCombinedOutput : Call → Bool
  | .CombinedOutput _ _ _ => true
  | _ => false

/-- The text whose bytes are `b`, for bytes in the ASCII range. -/
def asciiText (b : Bytes) : String :=
  ⟨b.map (fun c => Char.ofNat c.toNat)⟩

/-- Whether the text `t` occurs in the message `m`. -/
abbrev occursIn (t m : String) : Prop :=
  t.data <:+: m.data

end PandocConverter

namespace PandocConverter

theorem kFormats_tokens_nodup : (kFormats.map Prod.snd).Nodup := by
  decide

section shape

variable {σ : Type} (api : Api) (rt : Runtime σ) (s : ConverterService)
  (req : ConvertRequest) (st : σ)

theorem convertBody_ran (td : String) (st1 : σ)
    (hm : rt.MkdirTemp (rt.TempDir st) "session-*" st = ((td, none), st1)) :
    Ran api rt s req st
      ⟨(convertBody api rt s req td st1).resp, (convertBody api rt s req td st1).err,
        (rt.RemoveAll td (convertBody api rt s req td st1).state).2,
        Call.MkdirTemp (rt.TempDir st) "session-*" td none ::
          (convertBody api rt s req td st1).calls ++
          [Call.RemoveAll td (rt.RemoveAll td (convertBody api rt s req td st1).state).1]⟩ := by
  unfold convertBody
  rcases hf : kFormatsLookup api req.FromFormat with _ | i
  · exact Ran.badFrom td st1 _ _ hm hf rfl
  rcases ht : kFormatsLookup api req.ToFormat with _ | o
  · exact Ran.badTo td st1 _ _ i hm hf ht rfl
  by_cases hc : req.Content.length = 0
  · simp only [hc, if_true]
    exact Ran.emptyContent td st1 _ _ i o hm hf ht hc rfl
  simp only [hc, if_false]
  rcases hw : rt.WriteFile (rt.Join td "input-file") req.Content ModePerm st1 with ⟨we, st2⟩
  rcases we with _ | e
  swap
  · exact Ran.writeFailed td st1 i o e st2 _ _ hm hf ht hc hw rfl
  simp only [List.singleton_append, List.headD_cons, List.tail_cons]
  rcases hx : rt.CombinedOutput (CommandContext rt st2 s.pandoc ["-i", rt.Join td "input-file",
      "-f", i, "-o", rt.Join td "output-file", "-t", o]) st2 with ⟨⟨out, xe⟩, st3⟩
  rcases xe with _ | e
  swap
  · exact Ran.runFailed td st1 i o st2 out e st3 _ _ hm hf ht hc hw hx rfl
  rcases ho : rt.ReadFile (rt.Join td "output-file") st3 with ⟨⟨data, oe⟩, st4⟩
  rcases oe with _ | e
  swap
  · exact Ran.readFailed td st1 i o st2 out st3 data e st4 _ _ hm hf ht hc hw hx ho rfl
  exact Ran.done td st1 i o st2 out st3 data st4 _ _ hm hf ht hc hw hx ho rfl

theorem Convert_ran : Ran api rt s req st (Convert api rt s req st) := by
  unfold Convert
  rcases hm : rt.MkdirTemp (rt.TempDir st) "session-*" st with ⟨⟨td, me⟩, st1⟩
  rcases me with _ | e
  · exact convertBody_ran api rt s req st td st1 hm
  · exact Ran.mkdirFailed td e st1 hm

end shape

/-! ## The command -/

theorem CommandContext_Args {σ : Type} (rt : Runtime σ) (st : σ) (name : String)
    (arg : List String) : (CommandContext rt st name arg).Args = name :: arg := by
  unfold CommandContext
  split <;> rfl

theorem CommandContext_Env {σ : Type} (rt : Runtime σ) (st : σ) (name : String)
    (arg : List String) : (CommandContext rt st name arg).Env = none := by
  unfold CommandContext
  split <;> rfl

theorem CommandContext_Path_dir {σ : Type} (rt : Runtime σ) (st : σ) (name : String)
    (arg : List String) (h : rt.Base name ≠ name) :
    (CommandContext rt st name arg).Path = name := by
  unfold CommandContext
  rw [if_neg h]

theorem CommandContext_Path_bare {σ : Type} (rt : Runtime σ) (st : σ) (name : String)
    (arg : List String) (h : rt.Base name = name) :
    (CommandContext rt st name arg).Path =
      if (rt.LookPath name st).1 ≠ "" then (rt.LookPath name st).1 else name := by
  unfold CommandContext
  rw [if_pos h]

/-! ## The format table is injective -/

theorem kFormatsLookup_some (api : Api) (f : Format) (t : String)
    (h : kFormatsLookup api f = some t) :
    ∃ n, (n, t) ∈ kFormats ∧ api.Format_value n = f := by
  unfold kFormatsLookup at h
  rcases hfind : kFormats.find? (fun e => decide (api.Format_value e.1 = f)) with _ | e
  · simp [hfind] at h
  · rw [hfind] at h
    simp only [Option.map_some', Option.some.injEq] at h
    refine ⟨e.1, ?_, ?_⟩
    · have hmem := List.mem_of_find?_eq_some hfind
      rw [← h]
      exact hmem
    · have hp := List.find?_some hfind
      simpa using hp

/-- C8: the format table is injective. Two different `Format` values that are
both keys of `kFormats` are mapped to different converter tokens, so that a
token determines the format it came from. -/
theorem kFormats_injective (api : Api) (f g : Format) (t u : String)
    (hf : kFormatsLookup api f = some t) (hg : kFormatsLookup api g = some u)
    (hne : f ≠ g) : t ≠ u := by
  obtain ⟨n, hn, hnf⟩ := kFormatsLookup_some api f t hf
  obtain ⟨m, hm, hmg⟩ := kFormatsLookup_some api g u hg
  intro htu
  have hinj := List.inj_on_of_nodup_map kFormats_tokens_nodup hn hm htu
  have hnm : n = m := congrArg Prod.fst hinj
  exact hne (by rw [← hnf, ← hmg, hnm])

theorem kFormats_injective_witness :
    kFormatsLookup sampleApi (sampleApi.Format_value .MARKDOWN) = some "markdown" ∧
      kFormatsLookup sampleApi (sampleApi.Format_value .DOCX) = some "docx" ∧
      sampleApi.Format_value .MARKDOWN ≠ sampleApi.Format_value .DOCX ∧
      "markdown" ≠ "docx" :=
  ⟨by decide, by decide, by decide,
    kFormats_injective sampleApi (sampleApi.Format_value .MARKDOWN)
      (sampleApi.Format_value .DOCX) "markdown" "docx" (by decide) (by decide) (by decide)⟩

/-! ## Success -/

/-- C1 (amended): when the temporary directory of the call was made and the
request has an unregistered `FromFormat`, an unregistered `ToFormat` or empty
content, `Convert` returns no response and an `InvalidArgument` error whose
message names a check that failed: `invalid from format <value>`,
`invalid to format <value>` or `empty input content`. -/
theorem Convert_rejects_invalid {σ : Type} (api : Api) (rt : Runtime σ)
    (s : ConverterService) (req : ConvertRequest) (st : σ) (d pat td : String)
    (hdir : Call.MkdirTemp d pat td none ∈ (Convert api rt s req st).calls)
    (hbad : kFormatsLookup api req.FromFormat = none ∨
      kFormatsLookup api req.ToFormat = none ∨ req.Content.length = 0) :
    (Convert api rt s req st).resp = none ∧
      ∃ msg, (Convert api rt s req st).err = some ⟨.InvalidArgument, msg⟩ ∧
        ((kFormatsLookup api req.FromFormat = none ∧
            msg = "invalid from format " ++ api.Format_String req.FromFormat) ∨
          (kFormatsLookup api req.ToFormat = none ∧
            msg = "invalid to format " ++ api.Format_String req.ToFormat) ∨
          (req.Content.length = 0 ∧ msg = "empty input content")) := by
  have h := Convert_ran api rt s req st
  generalize Convert api rt s req st = r at *
  cases h <;> simp_all

theorem Convert_rejects_invalid_witness :
    Call.MkdirTemp "/tmp" "session-*" "/tmp/session-1" none ∈
        (Convert sampleApi (scripted allGood) sampleService emptyRequest emptyFS).calls ∧
      emptyRequest.Content.length = 0 ∧
      ((Convert sampleApi (scripted allGood) sampleService emptyRequest emptyFS).resp = none ∧
        ∃ msg, (Convert sampleApi (scripted allGood) sampleService emptyRequest emptyFS).err =
            some ⟨.InvalidArgument, msg⟩ ∧
          ((kFormatsLookup sampleApi emptyRequest.FromFormat = none ∧
              msg = "invalid from format " ++ sampleApi.Format_String emptyRequest.FromFormat) ∨
            (kFormatsLookup sampleApi emptyRequest.ToFormat = none ∧
              msg = "invalid to format " ++ sampleApi.Format_String emptyRequest.ToFormat) ∨
            (emptyRequest.Content.length = 0 ∧ msg = "empty input content"))) :=
  ⟨by decide, by decide,
    Convert_rejects_invalid sampleApi (scripted allGood) sampleService emptyRequest emptyFS
      "/tmp" "session-*" "/tmp/session-1" (by decide) (Or.inr (Or.inr (by decide)))⟩

/-- C1 (counterexample): the request `MARKDOWN` to `DOCX` with empty content,
on a machine whose scratch root is full, gets an `Internal` error, not
`InvalidArgument`. -/
theorem Convert_invalid_without_directory :
    emptyRequest.Content.length = 0 ∧
      (Convert sampleApi (scripted noSpace) sampleService emptyRequest emptyFS).err =
        some ⟨.Internal, "failed to create temporary directory for call - " ++
          "mkdir /tmp/session-1: no space left on device"⟩ := by
  decide

/-- C2 (amended): a request that fails validation does get a workspace. The
library calls of such a call are exactly one `MkdirTemp` under the scratch
root and, when that succeeded, one `RemoveAll` of the directory made: no file
is written and the converter is not run. -/
theorem Convert_invalid_calls {σ : Type} (api : Api) (rt : Runtime σ)
    (s : ConverterService) (req : ConvertRequest) (st : σ)
    (hbad : kFormatsLookup api req.FromFormat = none ∨
      kFormatsLookup api req.ToFormat = none ∨ req.Content.length = 0) :
    ∃ td, (∃ e, (Convert api rt s req st).calls =
          [Call.MkdirTemp (rt.TempDir st) "session-*" td (some e)]) ∨
      (∃ re, (Convert api rt s req st).calls =
          [Call.MkdirTemp (rt.TempDir st) "session-*" td none, Call.RemoveAll td re]) := by
  have h := Convert_ran api rt s req st
  generalize Convert api rt s req st = r at *
  cases h <;> simp_all

theorem Convert_invalid_calls_witness :
    emptyRequest.Content.length = 0 ∧
      ∃ td, (∃ e, (Convert sampleApi (scripted allGood) sampleService emptyRequest emptyFS).calls =
            [Call.MkdirTemp ((scripted allGood).TempDir emptyFS) "session-*" td (some e)]) ∨
        (∃ re, (Convert sampleApi (scripted allGood) sampleService emptyRequest emptyFS).calls =
            [Call.MkdirTemp ((scripted allGood).TempDir emptyFS) "session-*" td none,
              Call.RemoveAll td re]) :=
  ⟨by decide,
    Convert_invalid_calls sampleApi (scripted allGood) sampleService emptyRequest emptyFS
      (Or.inr (Or.inr (by decide)))⟩

/-- C2 (counterexample): for the request `MARKDOWN` to `DOCX` with empty
content `Convert` calls `MkdirTemp`, the directory `/tmp/session-1` is present
in the state that call leaves, and only the deferred `RemoveAll` takes it away
again. -/
theorem Convert_invalid_makes_directory :
    emptyRequest.Content.length = 0 ∧
      (Convert sampleApi (scripted allGood) sampleService emptyRequest emptyFS).calls =
        [Call.MkdirTemp "/tmp" "session-*" "/tmp/session-1" none,
          Call.RemoveAll "/tmp/session-1" none] ∧
      (scripted allGood).DirExists
        ((scripted allGood).MkdirTemp "/tmp" "session-*" emptyFS).2 "/tmp/session-1" = true := by
  decide

/-! ## Removal of the workspace -/

theorem convertBody_RemoveAll {σ : Type} (api : Api) (rt : Runtime σ)
    (s : ConverterService) (req : ConvertRequest) (td : String) (st : σ)
    (f : String → σ → Option String × σ) :
    convertBody api { rt with RemoveAll := f } s req td st = convertBody api rt s req td st :=
  rfl

theorem Ran_removal {σ : Type} (api : Api) (rt : Runtime σ) (s : ConverterService)
    (req : ConvertRequest) (st : σ) (r : Outcome σ) (d pat td : String)
    (h : Ran api rt s req st r) (hdir : Call.MkdirTemp d pat td none ∈ r.calls) :
    ∃ re x, rt.RemoveAll td x = (re, r.state) ∧
      r.calls.getLast? = some (Call.RemoveAll td re) ∧
      r.calls.countP Call.isRemoveAll = 1 := by
  cases h with
  | mkdirFailed td1 e st1 hm => simp at hdir
  | badFrom td1 st1 re st2 hm hf hr =>
    simp at hdir
    obtain ⟨-, -, rfl⟩ := hdir
    exact ⟨re, st1, hr, by simp, by simp [Call.isRemoveAll, List.countP_cons]⟩
  | badTo td1 st1 re st2 i hm hf ht hr =>
    simp at hdir
    obtain ⟨-, -, rfl⟩ := hdir
    exact ⟨re, st1, hr, by simp, by simp [Call.isRemoveAll, List.countP_cons]⟩
  | emptyContent td1 st1 re st2 i o hm hf ht hc hr =>
    simp at hdir
    obtain ⟨-, -, rfl⟩ := hdir
    exact ⟨re, st1, hr, by simp, by simp [Call.isRemoveAll, List.countP_cons]⟩
  | writeFailed td1 st1 i o e st2 re st3 hm hf ht hc hw hr =>
    simp at hdir
    obtain ⟨-, -, rfl⟩ := hdir
    exact ⟨re, st2, hr, by simp, by simp [Call.isRemoveAll, List.countP_cons]⟩
  | runFailed td1 st1 i o st2 out e st3 re st4 hm hf ht hc hw hx hr =>
    simp at hdir
    obtain ⟨-, -, rfl⟩ := hdir
    exact ⟨re, st3, hr, by simp, by simp [Call.isRemoveAll, List.countP_cons]⟩
  | readFailed td1 st1 i o st2 out st3 data e st4 re st5 hm hf ht hc hw hx ho hr =>
    simp at hdir
    obtain ⟨-, -, rfl⟩ := hdir
    exact ⟨re, st4, hr, by simp, by simp [Call.isRemoveAll, List.countP_cons]⟩
  | done td1 st1 i o st2 out st3 data st4 re st5 hm hf ht hc hw hx ho hr =>
    simp at hdir
    obtain ⟨-, -, rfl⟩ := hdir
    exact ⟨re, st4, hr, by simp, by simp [Call.isRemoveAll, List.countP_cons]⟩

theorem scripted_RemoveAll_gone (k : Script) (p : String) (x : MemFS)
    (h : ((scripted k).RemoveAll p x).1 = none) :
    (scripted k).DirExists ((scripted k).RemoveAll p x).2 p = false := by
  unfold scripted at h ⊢
  simp only at h ⊢
  rcases hk : k.removeErr with _ | e
  · simp [below]
  · simp [hk] at h

/-- C3 (amended): in a call whose workspace directory `td` was made, the last
library call is `RemoveAll td` and it is the only removal, on every path; when
that removal reports no error (and `RemoveAll` without error means the path is
gone) the directory is absent from the state the call leaves; and whatever
`RemoveAll` does, errors included, the response and the error returned are the
same. -/
theorem Convert_removes_directory {σ : Type} (api : Api) (rt : Runtime σ)
    (s : ConverterService) (req : ConvertRequest) (st : σ) (d pat td : String)
    (hdir : Call.MkdirTemp d pat td none ∈ (Convert api rt s req st).calls) :
    (∃ re, (Convert api rt s req st).calls.getLast? = some (Call.RemoveAll td re) ∧
        (Convert api rt s req st).calls.countP Call.isRemoveAll = 1 ∧
        ((∀ p x, (rt.RemoveAll p x).1 = none → rt.DirExists (rt.RemoveAll p x).2 p = false) →
          re = none → rt.DirExists (Convert api rt s req st).state td = false)) ∧
      ∀ f, (Convert api { rt with RemoveAll := f } s req st).resp =
            (Convert api rt s req st).resp ∧
          (Convert api { rt with RemoveAll := f } s req st).err =
            (Convert api rt s req st).err := by
  constructor
  · obtain ⟨re, x, hr, hlast, hcount⟩ := Ran_removal api rt s req st _ d pat td
      (Convert_ran api rt s req st) hdir
    refine ⟨re, hlast, hcount, ?_⟩
    intro law hre
    have hgone := law td x (by rw [hr]; exact hre)
    rw [hr] at hgone
    exact hgone
  · intro f
    unfold Convert
    simp only [convertBody_RemoveAll]
    split <;> simp

theorem Convert_removes_directory_witness :
    Call.MkdirTemp "/tmp" "session-*" "/tmp/session-1" none ∈
        (Convert sampleApi (scripted allGood) sampleService titleRequest emptyFS).calls ∧
      (∀ p x, ((scripted allGood).RemoveAll p x).1 = none →
        (scripted allGood).DirExists ((scripted allGood).RemoveAll p x).2 p = false) ∧
      ((∃ re, (Convert sampleApi (scripted allGood) sampleService titleRequest
              emptyFS).calls.getLast? = some (Call.RemoveAll "/tmp/session-1" re) ∧
          (Convert sampleApi (scripted allGood) sampleService titleRequest
              emptyFS).calls.countP Call.isRemoveAll = 1 ∧
          ((∀ p x, ((scripted allGood).RemoveAll p x).1 = none →
              (scripted allGood).DirExists ((scripted allGood).RemoveAll p x).2 p = false) →
            re = none →
            (scripted allGood).DirExists
              (Convert sampleApi (scripted allGood) sampleService titleRequest emptyFS).state
              "/tmp/session-1" = false)) ∧
        ∀ f, (Convert sampleApi { scripted allGood with RemoveAll := f } sampleService
              titleRequest emptyFS).resp =
            (Convert sampleApi (scripted allGood) sampleService titleRequest emptyFS).resp ∧
          (Convert sampleApi { scripted allGood with RemoveAll := f } sampleService
              titleRequest emptyFS).err =
            (Convert sampleApi (scripted allGood) sampleService titleRequest emptyFS).err) :=
  ⟨by decide, scripted_RemoveAll_gone allGood,
    Convert_removes_directory sampleApi (scripted allGood) sampleService titleRequest emptyFS
      "/tmp" "session-*" "/tmp/session-1" (by decide)⟩

/-- C3 (counterexample): a conversion that succeeds on a machine where the
removal of `/tmp/session-1` is refused. The directory was made by the call and
is still present in the state the call leaves. -/
theorem Convert_leaves_directory :
    Call.MkdirTemp "/tmp" "session-*" "/tmp/session-1" none ∈
        (Convert sampleApi (scripted noRemove) sampleService titleRequest emptyFS).calls ∧
      Call.RemoveAll "/tmp/session-1" (some "unlinkat /tmp/session-1: permission denied") ∈
        (Convert sampleApi (scripted noRemove) sampleService titleRequest emptyFS).calls ∧
      (scripted noRemove).DirExists
        (Convert sampleApi (scripted noRemove) sampleService titleRequest emptyFS).state
        "/tmp/session-1" = true := by
  decide

/-! ## Failures of a valid request -/

/-- C5 (the code at the failing input): the converter prints the two bytes of
`hi` and exits with status 1. The message of the error returned renders the
captured output as the decimal list `[104 105]`; the text `hi` does not occur
in it. -/
theorem Convert_failure_message_lists_bytes :
    (Convert sampleApi (scripted converterFails) sampleService titleRequest emptyFS).err =
        some ⟨.Internal, "conversion failed - exit status 1\n[104 105]"⟩ ∧
      asciiText [104, 105] = "hi" ∧
      ¬ occursIn "hi" "conversion failed - exit status 1\n[104 105]" := by
  decide

/-- C6: for a request that passes validation, `Convert` either succeeds or
returns no response and an `Internal` error, never `InvalidArgument`. A
failed `MkdirTemp`, a failed `WriteFile`, a failed run of the converter and a
failed `ReadFile` of the output each give no response and an `Internal` error,
and there is no success unless the output file was read: a zero exit status
is not enough. -/
theorem Convert_valid_failure_internal {σ : Type} (api : Api) (rt : Runtime σ)
    (s : ConverterService) (req : ConvertRequest) (st : σ)
    (hfrom : kFormatsLookup api req.FromFormat ≠ none)
    (hto : kFormatsLookup api req.ToFormat ≠ none)
    (hcontent : req.Content.length ≠ 0) :
    (((∃ resp, (Convert api rt s req st).resp = some resp) ∧
          (Convert api rt s req st).err = none) ∨
        ((Convert api rt s req st).resp = none ∧
          ∃ msg, (Convert api rt s req st).err = some ⟨.Internal, msg⟩)) ∧
      (∀ d pat td e, Call.MkdirTemp d pat td (some e) ∈ (Convert api rt s req st).calls →
        (Convert api rt s req st).resp = none ∧
          ∃ msg, (Convert api rt s req st).err = some ⟨.Internal, msg⟩) ∧
      (∀ name data perm e,
        Call.WriteFile name data perm (some e) ∈ (Convert api rt s req st).calls →
        (Convert api rt s req st).resp = none ∧
          ∃ msg, (Convert api rt s req st).err = some ⟨.Internal, msg⟩) ∧
      (∀ cmd out e, Call.CombinedOutput cmd out (some e) ∈ (Convert api rt s req st).calls →
        (Convert api rt s req st).resp = none ∧
          ∃ msg, (Convert api rt s req st).err = some ⟨.Internal, msg⟩) ∧
      (∀ name data e, Call.ReadFile name data (some e) ∈ (Convert api rt s req st).calls →
        (Convert api rt s req st).resp = none ∧
          ∃ msg, (Convert api rt s req st).err = some ⟨.Internal, msg⟩) ∧
      ((Convert api rt s req st).err = none →
        ∃ name data, Call.ReadFile name data none ∈ (Convert api rt s req st).calls) := by
  have h := Convert_ran api rt s req st
  generalize Convert api rt s req st = r at *
  cases h <;> simp_all

theorem Convert_valid_failure_internal_witness :
    kFormatsLookup sampleApi titleRequest.FromFormat ≠ none ∧
      kFormatsLookup sampleApi titleRequest.ToFormat ≠ none ∧
      titleRequest.Content.length ≠ 0 ∧
      ((((∃ resp, (Convert sampleApi (scripted converterFails) sampleService titleRequest emptyFS).resp = some resp) ∧ (Convert sampleApi (scripted converterFails) sampleService titleRequest emptyFS).err = none) ∨
          ((Convert sampleApi (scripted converterFails) sampleService titleRequest emptyFS).resp = none ∧ ∃ msg, (Convert sampleApi (scripted converterFails) sampleService titleRequest emptyFS).err = some ⟨.Internal, msg⟩)) ∧
        (∀ d pat td e, Call.MkdirTemp d pat td (some e) ∈ (Convert sampleApi (scripted converterFails) sampleService titleRequest emptyFS).calls →
          (Convert sampleApi (scripted converterFails) sampleService titleRequest emptyFS).resp = none ∧ ∃ msg, (Convert sampleApi (scripted converterFails) sampleService titleRequest emptyFS).err = some ⟨.Internal, msg⟩) ∧
        (∀ name data perm e, Call.WriteFile name data perm (some e) ∈ (Convert sampleApi (scripted converterFails) sampleService titleRequest emptyFS).calls →
          (Convert sampleApi (scripted converterFails) sampleService titleRequest emptyFS).resp = none ∧ ∃ msg, (Convert sampleApi (scripted converterFails) sampleService titleRequest emptyFS).err = some ⟨.Internal, msg⟩) ∧
        (∀ cmd out e, Call.CombinedOutput cmd out (some e) ∈ (Convert sampleApi (scripted converterFails) sampleService titleRequest emptyFS).calls →
          (Convert sampleApi (scripted converterFails) sampleService titleRequest emptyFS).resp = none ∧ ∃ msg, (Convert sampleApi (scripted converterFails) sampleService titleRequest emptyFS).err = some ⟨.Internal, msg⟩) ∧
        (∀ name data e, Call.ReadFile name data (some e) ∈ (Convert sampleApi (scripted converterFails) sampleService titleRequest emptyFS).calls →
          (Convert sampleApi (scripted converterFails) sampleService titleRequest emptyFS).resp = none ∧ ∃ msg, (Convert sampleApi (scripted converterFails) sampleService titleRequest emptyFS).err = some ⟨.Internal, msg⟩) ∧
        ((Convert sampleApi (scripted converterFails) sampleService titleRequest emptyFS).err = none → ∃ name data, Call.ReadFile name data none ∈ (Convert sampleApi (scripted converterFails) sampleService titleRequest emptyFS).calls)) :=
  ⟨by decide, by decide, by decide,
    Convert_valid_failure_internal sampleApi (scripted converterFails) sampleService
      titleRequest emptyFS (by decide) (by decide) (by decide)⟩

/-- C7 (amended): for a valid request whose workspace directory `td` was made,
`Convert` next writes the request content, unchanged, to `td/input-file`
(`path.Join td "input-file"`) with mode `fs.ModePerm`. When that write
succeeds the call that follows runs the converter: the command is the one
`exec.CommandContext` makes from `s.pandoc` and the arguments
`-i td/input-file -f <from token> -o td/output-file -t <to token>`, so its
argument vector is `s.pandoc` followed by these and it has no environment of
its own; and the converter is not run a second time. When the write fails the
converter is not run at all. -/
theorem Convert_valid_calls {σ : Type} (api : Api) (rt : Runtime σ)
    (s : ConverterService) (req : ConvertRequest) (st : σ) (i o d pat td : String)
    (hfrom : kFormatsLookup api req.FromFormat = some i)
    (hto : kFormatsLookup api req.ToFormat = some o)
    (hcontent : req.Content.length ≠ 0)
    (hdir : Call.MkdirTemp d pat td none ∈ (Convert api rt s req st).calls) :
    ∃ we rest, (Convert api rt s req st).calls =
        Call.MkdirTemp d pat td none ::
          Call.WriteFile (rt.Join td "input-file") req.Content ModePerm we :: rest ∧
      (we = none → ∃ cmd x out xe rest1,
        rest = Call.CombinedOutput cmd out xe :: rest1 ∧
          cmd = CommandContext rt x s.pandoc ["-i", rt.Join td "input-file", "-f", i,
            "-o", rt.Join td "output-file", "-t", o] ∧
          cmd.Args = [s.pandoc, "-i", rt.Join td "input-file", "-f", i,
            "-o", rt.Join td "output-file", "-t", o] ∧
          cmd.Env = none ∧
          ∀ c ∈ rest1, c.isCombinedOutput = false) ∧
      (we ≠ none → ∀ c ∈ rest, c.isCombinedOutput = false) := by
  have h := Convert_ran api rt s req st
  generalize Convert api rt s req st = r at *
  cases h with
  | mkdirFailed td1 e st1 hm => simp at hdir
  | badFrom td1 st1 re st2 hm hf hr => simp_all
  | badTo td1 st1 re st2 i1 hm hf ht hr => simp_all
  | emptyContent td1 st1 re st2 i1 o1 hm hf ht hc hr => simp_all
  | writeFailed td1 st1 i1 o1 e st2 re st3 hm hf ht hc hw hr =>
    simp at hdir
    obtain ⟨rfl, rfl, rfl⟩ := hdir
    exact ⟨some e, _, rfl, by simp, by simp [Call.isCombinedOutput]⟩
  | runFailed td1 st1 i1 o1 st2 out e st3 re st4 hm hf ht hc hw hx hr =>
    simp at hdir
    obtain ⟨rfl, rfl, rfl⟩ := hdir
    obtain rfl : i1 = i := by simpa [hf] using hfrom
    obtain rfl : o1 = o := by simpa [ht] using hto
    exact ⟨none, _, rfl,
      fun _ => ⟨_, st2, out, some e, _, rfl, rfl, CommandContext_Args rt st2 _ _,
        CommandContext_Env rt st2 _ _, by simp [Call.isCombinedOutput]⟩,
      by simp⟩
  | readFailed td1 st1 i1 o1 st2 out st3 data e st4 re st5 hm hf ht hc hw hx ho hr =>
    simp at hdir
    obtain ⟨rfl, rfl, rfl⟩ := hdir
    obtain rfl : i1 = i := by simpa [hf] using hfrom
    obtain rfl : o1 = o := by simpa [ht] using hto
    exact ⟨none, _, rfl,
      fun _ => ⟨_, st2, out, none, _, rfl, rfl, CommandContext_Args rt st2 _ _,
        CommandContext_Env rt st2 _ _, by simp [Call.isCombinedOutput]⟩,
      by simp⟩
  | done td1 st1 i1 o1 st2 out st3 data st4 re st5 hm hf ht hc hw hx ho hr =>
    simp at hdir
    obtain ⟨rfl, rfl, rfl⟩ := hdir
    obtain rfl : i1 = i := by simpa [hf] using hfrom
    obtain rfl : o1 = o := by simpa [ht] using hto
    exact ⟨none, _, rfl,
      fun _ => ⟨_, st2, out, none, _, rfl, rfl, CommandContext_Args rt st2 _ _,
        CommandContext_Env rt st2 _ _, by simp [Call.isCombinedOutput]⟩,
      by simp⟩

theorem Convert_valid_calls_witness :
    kFormatsLookup sampleApi titleRequest.FromFormat = some "markdown" ∧
      kFormatsLookup sampleApi titleRequest.ToFormat = some "html5" ∧
      titleRequest.Content.length ≠ 0 ∧
      Call.MkdirTemp "/tmp" "session-*" "/tmp/session-1" none ∈ (Convert sampleApi (scripted allGood) sampleService titleRequest emptyFS).calls ∧
      ∃ we rest, (Convert sampleApi (scripted allGood) sampleService titleRequest emptyFS).calls =
          Call.MkdirTemp "/tmp" "session-*" "/tmp/session-1" none ::
            Call.WriteFile ((scripted allGood).Join "/tmp/session-1" "input-file")
              titleRequest.Content ModePerm we :: rest ∧
        (we = none → ∃ cmd x out xe rest1,
          rest = Call.CombinedOutput cmd out xe :: rest1 ∧
            cmd = CommandContext (scripted allGood) x sampleService.pandoc
              ["-i", (scripted allGood).Join "/tmp/session-1" "input-file", "-f", "markdown",
                "-o", (scripted allGood).Join "/tmp/session-1" "output-file", "-t", "html5"] ∧
            cmd.Args = [sampleService.pandoc, "-i",
              (scripted allGood).Join "/tmp/session-1" "input-file", "-f", "markdown",
              "-o", (scripted allGood).Join "/tmp/session-1" "output-file", "-t", "html5"] ∧
            cmd.Env = none ∧
            ∀ c ∈ rest1, c.isCombinedOutput = false) ∧
        (we ≠ none → ∀ c ∈ rest, c.isCombinedOutput = false) :=
  ⟨by decide, by decide, by decide, by decide,
    Convert_valid_calls sampleApi (scripted allGood) sampleService titleRequest emptyFS
      "markdown" "html5" "/tmp" "session-*" "/tmp/session-1"
      (by decide) (by decide) (by decide) (by decide)⟩

/-- C7 (counterexample): the valid request `MARKDOWN` to `HTML_5` with content
`# Title`, on a machine where the input file cannot be written. The calls are
the creation of the directory, the failed write and the removal: the
converter is never invoked. -/
theorem Convert_valid_without_converter :
    kFormatsLookup sampleApi titleRequest.FromFormat = some "markdown" ∧
      kFormatsLookup sampleApi titleRequest.ToFormat = some "html5" ∧
      titleRequest.Content.length ≠ 0 ∧
      (Convert sampleApi (scripted noWrite) sampleService titleRequest emptyFS).calls =
        [Call.MkdirTemp "/tmp" "session-*" "/tmp/session-1" none,
          Call.WriteFile "/tmp/session-1/input-file" [35, 32, 84, 105, 116, 108, 101] 511
            (some "open /tmp/session-1/input-file: read-only file system"),
          Call.RemoveAll "/tmp/session-1" none] := by
  decide

/-! ## Order of the validation checks -/

/-- C9: when the workspace was made, the checks are reported in a fixed order.
An unregistered `FromFormat` gives `invalid from format`, whatever the target
format and the content; otherwise an unregistered `ToFormat` gives
`invalid to format`, whatever the content; empty content is reported only when
both formats are registered. In all three cases there is no response, no file
is written and the converter is not run. -/
theorem Convert_validation_order {σ : Type} (api : Api) (rt : Runtime σ)
    (s : ConverterService) (req : ConvertRequest) (st : σ) (d pat td : String)
    (hdir : Call.MkdirTemp d pat td none ∈ (Convert api rt s req st).calls) :
    (kFormatsLookup api req.FromFormat = none →
        (Convert api rt s req st).err = some ⟨.InvalidArgument,
          "invalid from format " ++ api.Format_String req.FromFormat⟩) ∧
      (kFormatsLookup api req.FromFormat ≠ none → kFormatsLookup api req.ToFormat = none →
        (Convert api rt s req st).err = some ⟨.InvalidArgument,
          "invalid to format " ++ api.Format_String req.ToFormat⟩) ∧
      (kFormatsLookup api req.FromFormat ≠ none → kFormatsLookup api req.ToFormat ≠ none →
        req.Content.length = 0 →
        (Convert api rt s req st).err = some ⟨.InvalidArgument, "empty input content"⟩) ∧
      (kFormatsLookup api req.FromFormat = none ∨ kFormatsLookup api req.ToFormat = none ∨
          req.Content.length = 0 →
        (Convert api rt s req st).resp = none ∧
          ∀ c ∈ (Convert api rt s req st).calls,
            c.isWriteFile = false ∧ c.isCombinedOutput = false) := by
  have h := Convert_ran api rt s req st
  generalize Convert api rt s req st = r at *
  cases h <;> simp_all [Call.isWriteFile, Call.isCombinedOutput]

theorem Convert_validation_order_witness :
    Call.MkdirTemp "/tmp" "session-*" "/tmp/session-1" none ∈ (Convert sampleApi (scripted allGood) sampleService hopelessRequest emptyFS).calls ∧
      ((kFormatsLookup sampleApi hopelessRequest.FromFormat = none →
          (Convert sampleApi (scripted allGood) sampleService hopelessRequest emptyFS).err = some ⟨.InvalidArgument,
            "invalid from format " ++ sampleApi.Format_String hopelessRequest.FromFormat⟩) ∧
        (kFormatsLookup sampleApi hopelessRequest.FromFormat ≠ none →
          kFormatsLookup sampleApi hopelessRequest.ToFormat = none →
          (Convert sampleApi (scripted allGood) sampleService hopelessRequest emptyFS).err = some ⟨.InvalidArgument,
            "invalid to format " ++ sampleApi.Format_String hopelessRequest.ToFormat⟩) ∧
        (kFormatsLookup sampleApi hopelessRequest.FromFormat ≠ none →
          kFormatsLookup sampleApi hopelessRequest.ToFormat ≠ none →
          hopelessRequest.Content.length = 0 →
          (Convert sampleApi (scripted allGood) sampleService hopelessRequest emptyFS).err = some ⟨.InvalidArgument, "empty input content"⟩) ∧
        (kFormatsLookup sampleApi hopelessRequest.FromFormat = none ∨
            kFormatsLookup sampleApi hopelessRequest.ToFormat = none ∨
            hopelessRequest.Content.length = 0 →
          (Convert sampleApi (scripted allGood) sampleService hopelessRequest emptyFS).resp = none ∧
            ∀ c ∈ (Convert sampleApi (scripted allGood) sampleService hopelessRequest emptyFS).calls, c.isWriteFile = false ∧ c.isCombinedOutput = false)) :=
  ⟨by decide,
    Convert_validation_order sampleApi (scripted allGood) sampleService hopelessRequest emptyFS
      "/tmp" "session-*" "/tmp/session-1" (by decide)⟩

/-! ## The `PATH` override -/

theorem foldl_apply_pandoc (post : List Opt) (s0 : ConverterService)
    (h : ∀ q, Opt.WithPandocPath q ∉ post) :
    (post.foldl (fun s opt => opt.apply s) s0).pandoc = s0.pandoc := by
  induction post generalizing s0 with
  | nil => rfl
  | cons a rest ih =>
    have hrest : ∀ q, Opt.WithPandocPath q ∉ rest := fun q hq =>
      h q (List.mem_cons_of_mem a hq)
    rw [List.foldl_cons, ih (a.apply s0) hrest]
    cases a with
    | WithLog log => rfl
    | WithPandocPath q => exact absurd (List.mem_cons_self _ _) (h q)
    | WithPathEnvVar v => rfl

theorem NewConverterService_pandoc (lookPath : String × Option String)
    (newDevelopment : Logger × Option String) (opts : List Opt) (p : String)
    (s1 : ConverterService) (hp : p ≠ "")
    (hfold : (opts.foldl (fun (s : ConverterService) (opt : Opt) => opt.apply s)
      ⟨"", none, ""⟩).pandoc = p)
    (h : NewConverterService lookPath newDevelopment opts = (some s1, none)) :
    s1.pandoc = p := by
  unfold NewConverterService at h
  have hne : (opts.foldl (fun (s : ConverterService) (opt : Opt) => opt.apply s)
      ⟨"", none, ""⟩).pandoc ≠ "" := by
    rw [hfold]
    exact hp
  simp only [hne, if_false] at h
  split at h
  · simp only [Prod.mk.injEq, Option.some.injEq, and_true] at h
    rw [← h]
    exact hfold
  · split at h
    · simp at h
    · simp only [Prod.mk.injEq, Option.some.injEq, and_true] at h
      rw [← h]
      exact hfold

theorem Ran_command {σ : Type} (api : Api) (rt : Runtime σ) (s : ConverterService)
    (req : ConvertRequest) (st : σ) (r : Outcome σ) (cmd : Cmd) (out : Bytes)
    (e : Option String) (h : Ran api rt s req st r)
    (hmem : Call.CombinedOutput cmd out e ∈ r.calls) :
    ∃ x arg, cmd = CommandContext rt x s.pandoc arg := by
  cases h with
  | mkdirFailed td1 e1 st1 hm => simp at hmem
  | badFrom td1 st1 re st2 hm hf hr => simp at hmem
  | badTo td1 st1 re st2 i1 hm hf ht hr => simp at hmem
  | emptyContent td1 st1 re st2 i1 o1 hm hf ht hc hr => simp at hmem
  | writeFailed td1 st1 i1 o1 e1 st2 re st3 hm hf ht hc hw hr => simp at hmem
  | runFailed td1 st1 i1 o1 st2 out1 e1 st3 re st4 hm hf ht hc hw hx hr =>
    simp at hmem
    exact ⟨st2, _, hmem.1⟩
  | readFailed td1 st1 i1 o1 st2 out1 st3 data e1 st4 re st5 hm hf ht hc hw hx ho hr =>
    simp at hmem
    exact ⟨st2, _, hmem.1⟩
  | done td1 st1 i1 o1 st2 out1 st3 data st4 re st5 hm hf ht hc hw hx ho hr =>
    simp at hmem
    exact ⟨st2, _, hmem.1⟩

/-- C10 (amended): the `PATH` override has no effect on a conversion. Two
services with the same `pandoc`, whatever their `pathEnvVar`, give the same
outcome of `Convert` on every request and machine state: same response, same
error, same library calls with the same command, same final state. Every
converter command has `s.pandoc` as its first argument and no environment of
its own. Its binary is exactly `s.pandoc` when `s.pandoc` has a directory part
(`filepath.Base` does not return it unchanged); a bare name is replaced by what
`exec.LookPath` finds for it on the `PATH` of the server process. The service
built as in `cmd/root.go` from a non-empty `WithPandocPath` has exactly that
path as `pandoc`, and so has any service built from options whose last
`WithPandocPath` is non-empty. -/
theorem Convert_ignores_pathEnvVar {σ : Type} (api : Api) (rt : Runtime σ)
    (s1 s2 : ConverterService) (req : ConvertRequest) (st : σ)
    (hp : s1.pandoc = s2.pandoc) :
    Convert api rt s1 req st = Convert api rt s2 req st ∧
      (∀ cmd out e, Call.CombinedOutput cmd out e ∈ (Convert api rt s1 req st).calls →
        cmd.Args.head? = some s1.pandoc ∧ cmd.Env = none ∧
          (rt.Base s1.pandoc ≠ s1.pandoc → cmd.Path = s1.pandoc) ∧
          (rt.Base s1.pandoc = s1.pandoc → ∃ x, cmd.Path =
            if (rt.LookPath s1.pandoc x).1 ≠ "" then (rt.LookPath s1.pandoc x).1
            else s1.pandoc)) ∧
      (∀ lookPath newDevelopment l p v, p ≠ "" →
        NewConverterService lookPath newDevelopment
            [.WithLog (some l), .WithPandocPath p, .WithPathEnvVar v] =
          (some ⟨p, some l, v⟩, none)) ∧
      (∀ lookPath newDevelopment pre post p s3, p ≠ "" →
        (∀ q, Opt.WithPandocPath q ∉ post) →
        NewConverterService lookPath newDevelopment (pre ++ Opt.WithPandocPath p :: post) =
          (some s3, none) →
        s3.pandoc = p) := by
  refine ⟨?_, ?_, ?_, ?_⟩
  · simp only [Convert, convertBody, hp]
  · intro cmd out e hmem
    obtain ⟨x, arg, rfl⟩ := Ran_command api rt s1 req st _ cmd out e
      (Convert_ran api rt s1 req st) hmem
    refine ⟨?_, CommandContext_Env rt x _ _, CommandContext_Path_dir rt x _ _, ?_⟩
    · rw [CommandContext_Args]
      rfl
    · intro hbare
      exact ⟨x, CommandContext_Path_bare rt x _ _ hbare⟩
  · intro lookPath newDevelopment l p v hne
    simp [NewConverterService, Opt.apply, hne]
  · intro lookPath newDevelopment pre post p s3 hne hpost h
    refine NewConverterService_pandoc lookPath newDevelopment _ p s3 hne ?_ h
    rw [List.foldl_append, List.foldl_cons, foldl_apply_pandoc post _ hpost]
    rfl

theorem Convert_ignores_pathEnvVar_witness :
    sampleService.pandoc = otherPathService.pandoc ∧
      sampleService.pathEnvVar ≠ otherPathService.pathEnvVar ∧
      (Convert sampleApi (scripted allGood) sampleService titleRequest emptyFS =
          Convert sampleApi (scripted allGood) otherPathService titleRequest emptyFS ∧
        (∀ cmd out e, Call.CombinedOutput cmd out e ∈
            (Convert sampleApi (scripted allGood) sampleService titleRequest emptyFS).calls →
          cmd.Args.head? = some sampleService.pandoc ∧ cmd.Env = none ∧
            ((scripted allGood).Base sampleService.pandoc ≠ sampleService.pandoc →
              cmd.Path = sampleService.pandoc) ∧
            ((scripted allGood).Base sampleService.pandoc = sampleService.pandoc →
              ∃ x, cmd.Path =
                if ((scripted allGood).LookPath sampleService.pandoc x).1 ≠ "" then
                  ((scripted allGood).LookPath sampleService.pandoc x).1
                else sampleService.pandoc)) ∧
        (∀ lookPath newDevelopment l p v, p ≠ "" →
          NewConverterService lookPath newDevelopment
              [.WithLog (some l), .WithPandocPath p, .WithPathEnvVar v] =
            (some ⟨p, some l, v⟩, none)) ∧
        (∀ lookPath newDevelopment pre post p s3, p ≠ "" →
          (∀ q, Opt.WithPandocPath q ∉ post) →
          NewConverterService lookPath newDevelopment (pre ++ Opt.WithPandocPath p :: post) =
            (some s3, none) →
          s3.pandoc = p)) :=
  ⟨by decide, by decide,
    Convert_ignores_pathEnvVar sampleApi (scripted allGood) sampleService otherPathService
      titleRequest emptyFS (by decide)⟩

/-- C10 (counterexample): the service built as in `cmd/root.go` from
`WithPandocPath "pandoc"`, a non-empty path, on a machine where `pandoc` is
found in `/usr/bin`. The command that `Convert` runs has the binary
`/usr/bin/pandoc`, which is not the path given. -/
theorem Convert_bare_name_looked_up :
    NewConverterService ("", none) (⟨[]⟩, none)
        [.WithLog (some ⟨[]⟩), .WithPandocPath "pandoc", .WithPathEnvVar "/opt/pandoc/bin"] =
        (some bareService, none) ∧
      "pandoc" ≠ "" ∧
      Call.CombinedOutput
          ⟨"/usr/bin/pandoc", ["pandoc", "-i", "/tmp/session-1/input-file", "-f", "markdown",
            "-o", "/tmp/session-1/output-file", "-t", "html5"], none, none⟩ [] none ∈
        (Convert sampleApi (scripted allGood) bareService titleRequest emptyFS).calls ∧
      "/usr/bin/pandoc" ≠ "pandoc" := by
  decide

end PandocConverter
